import Mathlib

/-!
# yopass: issuance and one-time redemption of secrets

A shallow embedding of `yopass.go` (`validExpiration`, `saveHandler`, `getHandler`) together
with the parts of its collaborators that the handlers observe:

* the request: method, URL path and the JSON document carried by the body;
* `encoding/json` decoding into the `secret` struct (field matching, types, `int32` range);
* `uuid.NewUUID().String()` (sixteen bytes printed as 8-4-4-4-12 lowercase hexadecimal);
* the memcached client: `Set`, `Get`, `Delete` over a list of items, every call recorded, each
  call given the error (if any) with which the network or the server answers it;
* the regular expression of `getHandler`, as a left-to-right matcher of its pattern.

Go strings that reach the handlers are text: a decoded JSON string is valid UTF-8 and a path that
is not cannot match the pattern. They are embedded as `String`, `len` being the length in bytes.
Response headers and the passage of time (expiry of a TTL) are not part of the model.
-/

namespace Yopass

/-! ## Requests -/

/-- A JSON document, as the decoder sees it once the text is tokenised. A number literal is either
an integer literal or one with a fraction or an exponent (kept as its text). -/
inductive JSON where
  | null
  | bool (b : Bool)
  | int (n : Int)
  | float (literal : String)
  | str (s : String)
  | arr (elems : List JSON)
  | obj (fields : List (String × JSON))

/-- The fields of `http.Request` read by the handlers. `Body` is the first JSON value of the body,
`none` when the body does not start with a well-formed JSON value (empty body, syntax error). -/
structure Request where
  Method : String
  Path : String
  Body : Option JSON

/-- The struct `secret`: `Secret string`, `Expiration int32`. -/
structure secret where
  Secret : String
  Expiration : Int
  deriving DecidableEq, Repr

/-- Go's `len` on a string: its length in bytes. -/
def len (s : String) : Nat := s.utf8ByteSize

/-! ## Responses -/

/-- What a handler writes: the text given to `http.Error` (sent followed by a newline), or the
map given to `json.Marshal`, listed in key order as the encoder emits it. -/
inductive Payload where
  | text (s : String)
  | object (fields : List (String × String))
  deriving DecidableEq, Repr

/-- Status code and body of the response. -/
structure Response where
  status : Nat
  body : Payload
  deriving DecidableEq, Repr

def StatusOK : Nat := 200
def StatusBadRequest : Nat := 400
def StatusNotFound : Nat := 404
def StatusInternalServerError : Nat := 500

/-- The helper `http.Error(response, text, code)`. -/
def Error (text : String) (code : Nat) : Response := ⟨code, .text text⟩

/-- The call `response.Write(jsonData)` with `jsonData` the encoding of `fields`: status 200. -/
def Write (fields : List (String × String)) : Response := ⟨StatusOK, .object fields⟩

/-! ## validExpiration -/

/-- The loop of `validExpiration` over the remaining lifetimes. -/
def rangeTTL (expiration : Int) : List Int → Bool
  | [] => false
  | ttl :: rest => if ttl = expiration then true else rangeTTL expiration rest

/-- Function `validExpiration`: a linear search of the three sanctioned lifetimes. -/
def validExpiration (expiration : Int) : Bool :=
  rangeTTL expiration [3600, 86400, 604800]

/-! ## Decoding the body -/

/-- Case folding of `encoding/json` when a key is compared with a field name: ASCII letters
ignore case, and the long s (U+017F) and the Kelvin sign (U+212A) fold to `s` and `k`. -/
def foldRune (c : Char) : Char :=
  if c.toNat = 0x17F then 's' else if c.toNat = 0x212A then 'k' else c.toLower

/-- Whether the object key `key` selects the struct field tagged `name`. -/
def equalFold (name key : String) : Bool :=
  name.data.map foldRune == key.data.map foldRune

/-- A value stored into the field `Secret string`: a JSON string is taken, `null` leaves the
field as it is, any other value is a type error (`none`). -/
def setSecret (s : secret) : JSON → Option secret
  | .str x => some { s with Secret := x }
  | .null => some s
  | .bool _ => none
  | .int _ => none
  | .float _ => none
  | .arr _ => none
  | .obj _ => none

/-- A value stored into the field `Expiration int32`: an integer literal within `int32` is
taken, `null` leaves the field as it is, any other value is an error (`none`). -/
def setExpiration (s : secret) : JSON → Option secret
  | .int n =>
    if -2147483648 ≤ n ∧ n ≤ 2147483647 then some { s with Expiration := n } else none
  | .null => some s
  | .bool _ => none
  | .float _ => none
  | .str _ => none
  | .arr _ => none
  | .obj _ => none

/-- One member of the body object stored into the struct; a key that selects no field is
skipped. -/
def setField (s : secret) (key : String) (value : JSON) : Option secret :=
  if equalFold "secret" key then setSecret s value
  else if equalFold "expiration" key then setExpiration s value
  else some s

/-- The members of an object stored one after the other, later members overriding earlier. -/
def setFields (s : secret) : List (String × JSON) → Option secret
  | [] => some s
  | (key, value) :: rest =>
    match setField s key value with
    | none => none
    | some t => setFields t rest

/-- The call `decoder.Decode(&s)` on a zero `secret`: `none` is a non-nil `err`. A top-level
`null` decodes without effect; any other value that is not an object is a type error. -/
def Decode : Option JSON → Option secret
  | none => none
  | some .null => some ⟨"", 0⟩
  | some (.obj fields) => setFields ⟨"", 0⟩ fields
  | some _ => none

/-! ## Identifiers -/

/-- The type `uuid.UUID`, a byte slice; `[]` stands for the nil slice. -/
abbrev UUID := List (Fin 256)

/-- The value returned by `uuid.NewUUID()`: a version 1 identifier, sixteen bytes taken from the
clock, the clock sequence and the node of the host. -/
structure NewUUID where
  uuid : UUID
  size : uuid.length = 16

/-- The table of `encoding/hex`. -/
def hextable : List Char := "0123456789abcdef".data

/-- One hexadecimal digit. -/
def hexDigit (n : Nat) : Char := hextable.getD n '0'

/-- The verb `%x` on a byte slice: two lowercase digits for each byte. -/
def hexEncode : List (Fin 256) → List Char
  | [] => []
  | b :: rest => hexDigit (b.val / 16) :: hexDigit (b.val % 16) :: hexEncode rest

/-- The bytes `b[i:j]`. -/
def slice (b : List (Fin 256)) (i j : Nat) : List (Fin 256) := (b.take j).drop i

/-- Method `uuid.String()`: empty for a nil or ill-sized slice, otherwise the format
`%08x-%04x-%04x-%04x-%012x` of `b[:4], b[4:6], b[6:8], b[8:10], b[10:]`. -/
def UUID.String (uuid : UUID) : String :=
  if uuid.length ≠ 16 then ""
  else
    ⟨hexEncode (slice uuid 0 4) ++ '-' :: hexEncode (slice uuid 4 6) ++ '-' ::
      hexEncode (slice uuid 6 8) ++ '-' :: hexEncode (slice uuid 8 10) ++ '-' ::
      hexEncode (slice uuid 10 16)⟩

/-! ## The memcached client -/

/-- The type `memcache.Item`: key, value and expiration in seconds. -/
structure Item where
  Key : String
  Value : String
  Expiration : Int
  deriving DecidableEq, Repr

/-- A call made on the client. -/
inductive Command where
  | set (item : Item)
  | get (key : String)
  | delete (key : String)
  deriving DecidableEq, Repr

/-- The store behind `*memcache.Client`: the items it holds and the calls made so far, the
latest last. -/
structure Client where
  items : List Item
  calls : List Command
  deriving DecidableEq, Repr

/-- The text of `memcache.ErrCacheMiss`. -/
def ErrCacheMiss : String := "memcache: cache miss"

/-- The item stored under `key`, if any. -/
def lookup (key : String) : List Item → Option Item
  | [] => none
  | item :: rest => if item.Key = key then some item else lookup key rest

/-- The items without those stored under `key`. -/
def remove (key : String) : List Item → List Item
  | [] => []
  | item :: rest => if item.Key = key then remove key rest else item :: remove key rest

/-- Method `Set`. With `fault = some e` the call returns the error `e` and the store keeps its
items; otherwise the item replaces whatever was stored under its key and the error is nil. -/
def Client.Set (memcached : Client) (fault : Option String) (item : Item) :
    Option String × Client :=
  match fault with
  | some e => (some e, ⟨memcached.items, memcached.calls ++ [.set item]⟩)
  | none => (none, ⟨item :: remove item.Key memcached.items, memcached.calls ++ [.set item]⟩)

/-- Method `Get`. With `fault = some e` the call returns the error `e`; otherwise the item
stored under `key`, or the error `ErrCacheMiss` when there is none. -/
def Client.Get (memcached : Client) (fault : Option String) (key : String) :
    Except String Item × Client :=
  let after : Client := ⟨memcached.items, memcached.calls ++ [.get key]⟩
  match fault with
  | some e => (.error e, after)
  | none =>
    match lookup key memcached.items with
    | some item => (.ok item, after)
    | none => (.error ErrCacheMiss, after)

/-- Method `Delete`. With `fault = some e` the call returns the error `e` and the store keeps its
items; otherwise the item under `key` is removed (a miss when there was none). -/
def Client.Delete (memcached : Client) (fault : Option String) (key : String) :
    Option String × Client :=
  match fault with
  | some e => (some e, ⟨memcached.items, memcached.calls ++ [.delete key]⟩)
  | none =>
    (if (lookup key memcached.items).isSome then none else some ErrCacheMiss,
      ⟨remove key memcached.items, memcached.calls ++ [.delete key]⟩)

/-! ## saveHandler -/

/-- Function `saveHandler`. `fresh` is the value returned by `uuid.NewUUID()` and `setFault` the
error, if any, with which the store answers the `Set`. -/
def saveHandler (fresh : NewUUID) (setFault : Option String) (request : Request)
    (memcached : Client) : Response × Client :=
  let uuid := fresh.uuid
  if request.Method ≠ "POST" then
    (Error "\x7b\"message\": \"Bad Request, see https://github.com/jhaals/yopass for more info\"\x7d"
      StatusBadRequest, memcached)
  else
    match Decode request.Body with
    | none => (Error "\x7b\"message\": \"Unable to parse json\"\x7d" StatusBadRequest, memcached)
    | some s =>
      if validExpiration s.Expiration = false then
        (Error "\x7b\"message\": \"Invalid expiration specified\"\x7d" StatusBadRequest, memcached)
      else if len s.Secret > 10000 then
        (Error "\x7b\"message\": \"Message is too long\"\x7d" StatusBadRequest, memcached)
      else
        match memcached.Set setFault ⟨UUID.String uuid, s.Secret, s.Expiration⟩ with
        | (some _, after) =>
          (Error "\x7b\"message\": \"Failed to store secret in database\"\x7d"
            StatusInternalServerError, after)
        | (none, after) =>
          (Write [("key", UUID.String uuid), ("message", "secret stored")], after)

/-! ## getHandler -/

/-- The class `[0-9a-f]`. -/
def lowerHex (c : Char) : Bool :=
  (decide ('0' ≤ c) && decide (c ≤ '9')) || (decide ('a' ≤ c) && decide (c ≤ 'f'))

/-- The literal text `lit` at the head of the input: what follows it. -/
def literal : List Char → List Char → Option (List Char)
  | [], input => some input
  | _ :: _, [] => none
  | c :: lit, d :: input => if c = d then literal lit input else none

/-- The piece `[0-9a-f]{n}` at the head of the input: what follows it. -/
def hexRun : Nat → List Char → Option (List Char)
  | 0, input => some input
  | _ + 1, [] => none
  | n + 1, c :: input => if lowerHex c then hexRun n input else none

/-- The piece `([0-9a-f]{4}-)` at the head of the input. -/
def hexGroup (input : List Char) : Option (List Char) :=
  (hexRun 4 input).bind (literal ['-'])

/-- The group `([0-9a-f]{8}-([0-9a-f]{4}-){3}[0-9a-f]{12})` followed by `$`: the whole input. -/
def isUUIDText (input : List Char) : Bool :=
  ((((((hexRun 8 input).bind (literal ['-'])).bind hexGroup).bind hexGroup).bind hexGroup).bind
    (hexRun 12)) == some []

/-- The call `URL.FindStringSubmatch(path)` for the pattern
`^/v1/secret/([0-9a-f]{8}-([0-9a-f]{4}-){3}[0-9a-f]{12})$`: no element when the path does not
match, otherwise the path, the first group and the last repetition of the second group. -/
def FindStringSubmatch (path : String) : List String :=
  match literal "/v1/secret/".data path.data with
  | none => []
  | some rest =>
    if isUUIDText rest then [path, ⟨rest⟩, ⟨(rest.drop 19).take 5⟩] else []

/-- Function `getHandler`. `getFault` and `deleteFault` are the errors, if any, with which the
store answers the `Get` and the `Delete`. -/
def getHandler (getFault deleteFault : Option String) (request : Request)
    (memcached : Client) : Response × Client :=
  let UUIDMatches := FindStringSubmatch request.Path
  if UUIDMatches.length ≤ 0 then
    (Error "\x7b\"message\": \"Bad URL\"\x7d" StatusBadRequest, memcached)
  else
    match memcached.Get getFault (UUIDMatches.getD 1 "") with
    | (.error err, after) =>
      if err = "memcache: cache miss" then
        (Error "\x7b\"message\": \"Secret not found\"\x7d" StatusNotFound, after)
      else
        (Error "\x7b\"message\": \"Unable to receive secret from database\"\x7d"
          StatusInternalServerError, after)
    | (.ok item, after) =>
      let deleted := (after.Delete deleteFault (UUIDMatches.getD 1 "")).2
      (Write [("message", "OK"), ("secret", item.Value)], deleted)

/-! ## Vocabulary of the specification -/

/-- A lowercase hexadecimal digit, in the words of the specification. -/
def IsLowerHexDigit (c : Char) : Prop := c ∈ "0123456789abcdef".data

/-- The canonical textual format of an identifier, in the words of the specification: five
groups of 8, 4, 4, 4 and 12 lowercase hexadecimal digits, joined by hyphens. -/
def CanonicalId (id : String) : Prop :=
  ∃ a b c d e : List Char,
    id.data = a ++ '-' :: (b ++ '-' :: (c ++ '-' :: (d ++ '-' :: e))) ∧
    a.length = 8 ∧ b.length = 4 ∧ c.length = 4 ∧ d.length = 4 ∧ e.length = 12 ∧
    ∀ x ∈ a ++ b ++ c ++ d ++ e, IsLowerHexDigit x

/-- Whether a JSON value is a text. -/
def isText : JSON → Bool
  | .str _ => true
  | .null => false
  | .bool _ => false
  | .int _ => false
  | .float _ => false
  | .arr _ => false
  | .obj _ => false

/-- Whether a JSON value is an integer literal that fits 32 bits. -/
def isInt32 : JSON → Bool
  | .int n => decide (-2147483648 ≤ n ∧ n ≤ 2147483647)
  | .null => false
  | .bool _ => false
  | .float _ => false
  | .str _ => false
  | .arr _ => false
  | .obj _ => false

/-- Whether a JSON value is `null`, which counts as an absent member. -/
def isNull : JSON → Bool
  | .null => true
  | .bool _ => false
  | .int _ => false
  | .float _ => false
  | .str _ => false
  | .arr _ => false
  | .obj _ => false

/-- The structured payload of the specification, less its demand that a `secret` field be
present: the body begins with a JSON object in which every `secret` member is a text (or null),
every `expiration` member is an integer of 32 bits (or null), and some `expiration` member is
such an integer. Member names are compared ignoring case, as the decoder compares them. -/
def StructuredPayload : Option JSON → Bool
  | some (.obj fields) =>
    fields.all (fun kv => !equalFold "secret" kv.1 || isText kv.2 || isNull kv.2) &&
      fields.all (fun kv => !equalFold "expiration" kv.1 || isInt32 kv.2 || isNull kv.2) &&
      fields.any (fun kv => equalFold "expiration" kv.1 && isInt32 kv.2)
  | some .null => false
  | some (.bool _) => false
  | some (.int _) => false
  | some (.float _) => false
  | some (.str _) => false
  | some (.arr _) => false
  | none => false

/-- The payload and the lifetime that a body submits, in the words of the specification: the
body is an object with a `secret` field, each of them the text `payload`, and an `expiration`
field, each of them the integer `expiration`. Member names are compared ignoring case, as the
decoder compares them. -/
def Submits (body : Option JSON) (payload : String) (expiration : Int) : Prop :=
  ∃ fields, body = some (.obj fields) ∧
    (∃ kv ∈ fields, equalFold "secret" kv.1 = true) ∧
    (∀ kv ∈ fields, equalFold "secret" kv.1 = true → kv.2 = .str payload) ∧
    (∃ kv ∈ fields, equalFold "expiration" kv.1 = true) ∧
    (∀ kv ∈ fields, equalFold "expiration" kv.1 = true → kv.2 = .int expiration)

/-! ## Sample data -/

/-- A version 1 identifier as `uuid.NewUUID()` may return it. -/
def sampleUUID : NewUUID :=
  ⟨[0x6b, 0xa7, 0xb8, 0x10, 0x9d, 0xad, 0x11, 0xd1, 0x80, 0xb4, 0x00, 0xc0, 0x4f, 0xd4, 0x30, 0xc8],
    rfl⟩

/-- The text of `sampleUUID`. -/
def sampleId : String := "6ba7b810-9dad-11d1-80b4-00c04fd430c8"

/-- The issuance request `POST /v1/secret` with body `{"secret": x, "expiration": e}`. -/
def issue (x : String) (e : Int) : Request :=
  ⟨"POST", "/v1/secret", some (.obj [("secret", .str x), ("expiration", .int e)])⟩

/-- The request `method /v1/secret/id`, without a body. -/
def redeem (method id : String) : Request := ⟨method, "/v1/secret/" ++ id, none⟩

/-- A store with no item and no call made. -/
def emptyStore : Client := ⟨[], []⟩

/-- A store holding the secret `hunter2` under `sampleId` for an hour. -/
def hunterStore : Client := ⟨[⟨sampleId, "hunter2", 3600⟩], []⟩

/-- Another identifier in the canonical format. -/
def otherId : String := "0f8fad5b-d9cb-11e4-a165-70867728950e"

/-- A store holding the secret `swordfish` under `otherId` for a day. -/
def swordfishStore : Client := ⟨[⟨otherId, "swordfish", 86400⟩], []⟩

/-- A text of `n` bytes. -/
def filler (n : Nat) : String := ⟨List.replicate n 'x'⟩

/-! ## The pattern of getHandler and the canonical format -/
theorem lowerHex_toNat (c : Char) :
    lowerHex c = true ↔ (48 ≤ c.toNat ∧ c.toNat ≤ 57) ∨ (97 ≤ c.toNat ∧ c.toNat ≤ 102) := by
  simp only [lowerHex, Bool.or_eq_true, Bool.and_eq_true, decide_eq_true_eq, Char.le_def,
    UInt32.le_def, Char.toNat, UInt32.toNat]
  rfl

theorem lowerHex_iff (c : Char) : lowerHex c = true ↔ IsLowerHexDigit c := by
  rw [lowerHex_toNat]
  constructor
  · intro h
    have hc : c = Char.ofNat c.toNat := (Char.ofNat_toNat c).symm
    generalize c.toNat = n at h hc
    subst hc
    unfold IsLowerHexDigit
    rcases h with ⟨h1, h2⟩ | ⟨h1, h2⟩ <;> interval_cases n <;> decide
  · intro h
    simp only [IsLowerHexDigit, List.mem_cons, List.mem_nil_iff, or_false] at h
    rcases h with h | h | h | h | h | h | h | h | h | h | h | h | h | h | h | h <;> subst h <;> decide

theorem literal_eq_some (lit input rest : List Char) :
    literal lit input = some rest ↔ input = lit ++ rest := by
  induction lit generalizing input with
  | nil => simp [literal, eq_comm]
  | cons c lit ih =>
    cases input with
    | nil => simp [literal]
    | cons d input =>
      by_cases h : c = d
      · simp [literal, h, ih]
      · simp [literal, h]
        intro h2; exact absurd h2.symm h

theorem hexRun_eq_some (n : Nat) (input rest : List Char) :
    hexRun n input = some rest ↔
      ∃ a, a.length = n ∧ (∀ x ∈ a, lowerHex x = true) ∧ input = a ++ rest := by
  induction n generalizing input with
  | zero =>
    constructor
    · intro h
      simp only [hexRun, Option.some.injEq] at h
      exact ⟨[], rfl, by simp, by simp [h]⟩
    · rintro ⟨a, ha, -, rfl⟩
      simp [hexRun, List.length_eq_zero.mp ha]
  | succ n ih =>
    cases input with
    | nil =>
      constructor
      · intro h
        simp [hexRun] at h
      · rintro ⟨a, ha, -, heq⟩
        cases a with
        | nil => simp at ha
        | cons y a => simp at heq
    | cons c input =>
      by_cases h : lowerHex c = true
      · simp only [hexRun, h, if_true, ih]
        constructor
        · rintro ⟨a, ha, hx, rfl⟩
          exact ⟨c :: a, by simp [ha], by simpa [h] using hx, rfl⟩
        · rintro ⟨a, ha, hx, heq⟩
          cases a with
          | nil => simp at ha
          | cons y a =>
            simp at heq ha
            obtain ⟨rfl, rfl⟩ := heq
            exact ⟨a, ha, fun x hxa => hx x (List.mem_cons_of_mem _ hxa), rfl⟩
      · simp only [hexRun, h]
        simp
        intro a ha hx heq
        cases a with
        | nil => simp at ha
        | cons y a =>
          simp at heq
          obtain ⟨rfl, rfl⟩ := heq
          exact h (hx _ (List.mem_cons_self _ _))

theorem isUUIDText_iff (input : List Char) : isUUIDText input = true ↔ CanonicalId ⟨input⟩ := by
  simp only [isUUIDText, hexGroup, beq_iff_eq, Option.bind_eq_some, hexRun_eq_some,
    literal_eq_some, CanonicalId]
  constructor
  · rintro ⟨r5, ⟨r4, ⟨r3, ⟨r2, ⟨r1, ⟨a, ha, hxa, rfl⟩, rfl⟩, s2, ⟨b, hb, hxb, rfl⟩, rfl⟩,
      s3, ⟨c, hc, hxc, rfl⟩, rfl⟩, s4, ⟨d, hd, hxd, rfl⟩, rfl⟩, e, he, hxe, rfl⟩
    refine ⟨a, b, c, d, e, by simp, ha, hb, hc, hd, he, ?_⟩
    intro x hx
    simp only [List.mem_append] at hx
    rw [← lowerHex_iff]
    rcases hx with (((hx | hx) | hx) | hx) | hx
    · exact hxa x hx
    · exact hxb x hx
    · exact hxc x hx
    · exact hxd x hx
    · exact hxe x hx
  · rintro ⟨a, b, c, d, e, hin, ha, hb, hc, hd, he, hx⟩
    have hin2 : input = a ++ '-' :: (b ++ '-' :: (c ++ '-' :: (d ++ '-' :: e))) := hin
    subst hin2
    have hx2 : ∀ x ∈ a ++ b ++ c ++ d ++ e, lowerHex x = true :=
      fun x h => (lowerHex_iff x).mpr (hx x h)
    simp only [List.mem_append] at hx2
    refine ⟨e, ⟨d ++ '-' :: e, ⟨c ++ '-' :: (d ++ '-' :: e), ⟨b ++ '-' :: (c ++ '-' :: (d ++ '-' :: e)),
      ⟨'-' :: (b ++ '-' :: (c ++ '-' :: (d ++ '-' :: e))),
        ⟨a, ha, fun x h => hx2 x (by tauto), rfl⟩, rfl⟩,
      _, ⟨b, hb, fun x h => hx2 x (by tauto), rfl⟩, rfl⟩,
      _, ⟨c, hc, fun x h => hx2 x (by tauto), rfl⟩, rfl⟩,
      _, ⟨d, hd, fun x h => hx2 x (by tauto), rfl⟩, rfl⟩, e, he, fun x h => hx2 x (by tauto), by simp⟩

theorem FindStringSubmatch_canonical (id : String) (h : CanonicalId id) :
    FindStringSubmatch ("/v1/secret/" ++ id) =
      ["/v1/secret/" ++ id, id, ⟨(id.data.drop 19).take 5⟩] := by
  have h1 : literal "/v1/secret/".data ("/v1/secret/" ++ id).data = some id.data :=
    (literal_eq_some _ _ _).mpr (String.data_append _ _)
  have h2 : isUUIDText id.data = true := (isUUIDText_iff id.data).mpr h
  simp only [FindStringSubmatch, h1, h2, if_true]

theorem FindStringSubmatch_sound (path : String) (h : FindStringSubmatch path ≠ []) :
    ∃ id, CanonicalId id ∧ path = "/v1/secret/" ++ id := by
  unfold FindStringSubmatch at h
  cases hl : literal "/v1/secret/".data path.data with
  | none => simp [hl] at h
  | some rest =>
    by_cases hu : isUUIDText rest = true
    · refine ⟨⟨rest⟩, (isUUIDText_iff rest).mp hu, ?_⟩
      apply String.ext
      rw [String.data_append]
      exact (literal_eq_some _ _ _).mp hl
    · simp [hl, hu] at h

theorem FindStringSubmatch_nil_iff (path : String) :
    FindStringSubmatch path = [] ↔ ¬ ∃ id, CanonicalId id ∧ path = "/v1/secret/" ++ id := by
  constructor
  · rintro h ⟨id, hid, rfl⟩
    rw [FindStringSubmatch_canonical id hid] at h
    simp at h
  · intro h
    by_contra hne
    exact h (FindStringSubmatch_sound path hne)

theorem hexDigit_lower : ∀ n, n < 16 → IsLowerHexDigit (hexDigit n) := by
  unfold IsLowerHexDigit
  decide

theorem hexEncode_length (l : List (Fin 256)) : (hexEncode l).length = 2 * l.length := by
  induction l with
  | nil => rfl
  | cons b l ih => simp [hexEncode, ih]; omega

theorem hexEncode_lower (l : List (Fin 256)) : ∀ x ∈ hexEncode l, IsLowerHexDigit x := by
  induction l with
  | nil => simp [hexEncode]
  | cons b l ih =>
    intro x hx
    simp only [hexEncode, List.mem_cons] at hx
    rcases hx with rfl | rfl | hx
    · exact hexDigit_lower _ (by omega)
    · exact hexDigit_lower _ (by omega)
    · exact ih x hx

theorem slice_length (b : List (Fin 256)) (i j : Nat) :
    (slice b i j).length = min j b.length - i := by
  simp [slice]

theorem String_canonical (fresh : NewUUID) : CanonicalId (UUID.String fresh.uuid) := by
  have hs := fresh.size
  refine ⟨hexEncode (slice fresh.uuid 0 4), hexEncode (slice fresh.uuid 4 6),
    hexEncode (slice fresh.uuid 6 8), hexEncode (slice fresh.uuid 8 10),
    hexEncode (slice fresh.uuid 10 16), ?_, ?_, ?_, ?_, ?_, ?_, ?_⟩
  · simp [UUID.String, hs]
  · simp [hexEncode_length, slice_length, hs]
  · simp [hexEncode_length, slice_length, hs]
  · simp [hexEncode_length, slice_length, hs]
  · simp [hexEncode_length, slice_length, hs]
  · simp [hexEncode_length, slice_length, hs]
  · intro x hx
    simp only [List.mem_append] at hx
    rcases hx with (((hx | hx) | hx) | hx) | hx <;> exact hexEncode_lower _ x hx

theorem lookup_remove_self (key : String) (items : List Item) :
    lookup key (remove key items) = none := by
  induction items with
  | nil => rfl
  | cons item rest ih =>
    by_cases h : item.Key = key
    · simp [remove, h, ih]
    · simp [remove, lookup, h, ih]

theorem lookup_remove_ne (key other : String) (items : List Item) (h : other ≠ key) :
    lookup other (remove key items) = lookup other items := by
  induction items with
  | nil => rfl
  | cons item rest ih =>
    by_cases h1 : item.Key = key
    · have h2 : item.Key ≠ other := fun h3 => h (h3.symm.trans h1)
      simp only [remove, lookup, if_pos h1, if_neg h2, ih]
    · by_cases h2 : item.Key = other
      · simp only [remove, lookup, if_neg h1, if_pos h2]
      · simp only [remove, lookup, if_neg h1, if_neg h2, ih]

/-! ## Facts about the embedding used by several results -/

theorem len_filler (n : Nat) : len (filler n) = n := by
  unfold len filler String.utf8ByteSize
  induction n with
  | zero => rfl
  | succ n ih =>
    show String.utf8ByteSize.go (List.replicate n 'x') + 1 = n + 1
    exact congrArg (· + 1) ih

theorem Decode_issue (x : String) (e : Int) (h : -2147483648 ≤ e ∧ e ≤ 2147483647) :
    Decode (issue x e).Body = some ⟨x, e⟩ := by
  have h1 : equalFold "secret" "secret" = true := by decide
  have h2 : equalFold "secret" "expiration" = false := by decide
  have h3 : equalFold "expiration" "expiration" = true := by decide
  simp [issue, Decode, setFields, setField, setSecret, setExpiration, h1, h2, h3, h]

theorem validExpiration_iff (e : Int) :
    validExpiration e = true ↔ (e = 3600 ∨ e = 86400 ∨ e = 604800) := by
  simp only [validExpiration, rangeTTL]
  split_ifs with h1 h2 h3 <;> simp <;> omega

/-! ## Issuance -/

/-- C3. A POST request whose body decodes to a sanctioned expiration and a secret of at most
10000 bytes, the store write succeeding, is answered 200 with message "secret stored" and a key in
the canonical format, which the pattern of getHandler accepts and yields back as its group. -/
theorem issuance_succeeds (fresh : NewUUID) (request : Request) (memcached : Client) (s : secret)
    (hmethod : request.Method = "POST") (hbody : Decode request.Body = some s)
    (hexp : s.Expiration = 3600 ∨ s.Expiration = 86400 ∨ s.Expiration = 604800)
    (hlen : len s.Secret ≤ 10000) :
    (saveHandler fresh none request memcached).1 =
        ⟨200, .object [("key", UUID.String fresh.uuid), ("message", "secret stored")]⟩ ∧
      CanonicalId (UUID.String fresh.uuid) ∧
      FindStringSubmatch ("/v1/secret/" ++ UUID.String fresh.uuid) ≠ [] ∧
      (FindStringSubmatch ("/v1/secret/" ++ UUID.String fresh.uuid)).getD 1 "" =
        UUID.String fresh.uuid := by
  have hv : validExpiration s.Expiration = true := (validExpiration_iff _).mpr hexp
  have hl : ¬ len s.Secret > 10000 := by omega
  have hc := String_canonical fresh
  refine ⟨?_, hc, ?_, ?_⟩
  · simp [saveHandler, hmethod, hbody, hv, hl, Client.Set, Write, StatusOK]
  · rw [FindStringSubmatch_canonical _ hc]; simp
  · rw [FindStringSubmatch_canonical _ hc]; simp

theorem issuance_succeeds_boundary :
    (issue (filler 10000) 604800).Method = "POST" ∧ len (filler 10000) ≤ 10000 ∧
      (saveHandler sampleUUID none (issue (filler 10000) 604800) emptyStore).1 =
        ⟨200, .object [("key", UUID.String sampleUUID.uuid), ("message", "secret stored")]⟩ ∧
      CanonicalId (UUID.String sampleUUID.uuid) ∧
      FindStringSubmatch ("/v1/secret/" ++ UUID.String sampleUUID.uuid) ≠ [] ∧
      (FindStringSubmatch ("/v1/secret/" ++ UUID.String sampleUUID.uuid)).getD 1 "" =
        UUID.String sampleUUID.uuid :=
  ⟨rfl, le_of_eq (len_filler 10000),
    issuance_succeeds sampleUUID (issue (filler 10000) 604800) emptyStore ⟨filler 10000, 604800⟩
      rfl (Decode_issue _ _ (by decide)) (Or.inr (Or.inr rfl)) (le_of_eq (len_filler 10000))⟩

/-- C4. Function validExpiration is true exactly on 3600, 86400 and 604800; a request whose body
decodes to any other expiration, whatever its secret, is answered 400 and leaves the store as it
was, no call being made; under POST the message is "Invalid expiration specified". -/
theorem invalid_expiration_rejected (fresh : NewUUID) (setFault : Option String)
    (request : Request) (memcached : Client) (s : secret)
    (hbody : Decode request.Body = some s)
    (hexp : s.Expiration ≠ 3600 ∧ s.Expiration ≠ 86400 ∧ s.Expiration ≠ 604800) :
    (∀ e : Int, validExpiration e = true ↔ (e = 3600 ∨ e = 86400 ∨ e = 604800)) ∧
      (saveHandler fresh setFault request memcached).1.status = 400 ∧
      (saveHandler fresh setFault request memcached).2 = memcached ∧
      (request.Method = "POST" →
        (saveHandler fresh setFault request memcached).1 =
          Error "\x7b\"message\": \"Invalid expiration specified\"\x7d" 400) := by
  have hv : validExpiration s.Expiration = false := by
    rw [← Bool.not_eq_true, validExpiration_iff]
    tauto
  refine ⟨validExpiration_iff, ?_⟩
  by_cases hmethod : request.Method = "POST"
  · simp [saveHandler, hmethod, hbody, hv, Error, StatusBadRequest]
  · simp [saveHandler, hmethod, Error, StatusBadRequest]

theorem invalid_expiration_rejected_samples :
    Decode (issue "x" 60).Body = some ⟨"x", 60⟩ ∧
      (saveHandler sampleUUID none (issue "x" 60) hunterStore).1 =
        Error "\x7b\"message\": \"Invalid expiration specified\"\x7d" 400 ∧
      (saveHandler sampleUUID none (issue "x" 60) hunterStore).2 = hunterStore ∧
      (saveHandler sampleUUID none (issue "x" 0) hunterStore).2 = hunterStore ∧
      (saveHandler sampleUUID none (issue "x" 0) hunterStore).1.status = 400 ∧
      (saveHandler sampleUUID none (issue "x" (-3600)) hunterStore).1.status = 400 ∧
      (saveHandler sampleUUID none (issue "x" 3599) hunterStore).1.status = 400 ∧
      (saveHandler sampleUUID none (issue "x" 3601) hunterStore).1.status = 400 :=
  have h := invalid_expiration_rejected sampleUUID none (issue "x" 60) hunterStore ⟨"x", 60⟩
    (by decide) (by decide)
  have h0 := invalid_expiration_rejected sampleUUID none (issue "x" 0) hunterStore ⟨"x", 0⟩
    (by decide) (by decide)
  ⟨by decide, h.2.2.2 rfl, h.2.2.1, h0.2.2.1, h0.2.1,
    (invalid_expiration_rejected sampleUUID none (issue "x" (-3600)) hunterStore ⟨"x", -3600⟩
      (by decide) (by decide)).2.1,
    (invalid_expiration_rejected sampleUUID none (issue "x" 3599) hunterStore ⟨"x", 3599⟩
      (by decide) (by decide)).2.1,
    (invalid_expiration_rejected sampleUUID none (issue "x" 3601) hunterStore ⟨"x", 3601⟩
      (by decide) (by decide)).2.1⟩

/-- C5. A request whose body decodes to a secret of more than 10000 bytes is answered 400
whatever its expiration, and leaves the store as it was, no call being made; under POST with a
sanctioned expiration the message is "Message is too long". -/
theorem long_secret_rejected (fresh : NewUUID) (setFault : Option String)
    (request : Request) (memcached : Client) (s : secret)
    (hbody : Decode request.Body = some s) (hlen : len s.Secret > 10000) :
    (saveHandler fresh setFault request memcached).1.status = 400 ∧
      (saveHandler fresh setFault request memcached).2 = memcached ∧
      (request.Method = "POST" → validExpiration s.Expiration = true →
        (saveHandler fresh setFault request memcached).1 =
          Error "\x7b\"message\": \"Message is too long\"\x7d" 400) := by
  by_cases hmethod : request.Method = "POST"
  · by_cases hv : validExpiration s.Expiration = true
    · simp [saveHandler, hmethod, hbody, hv, hlen, Error, StatusBadRequest]
    · simp [saveHandler, hmethod, hbody, hv, Error, StatusBadRequest]
  · simp [saveHandler, hmethod, Error, StatusBadRequest]

theorem long_secret_rejected_10001 :
    len (filler 10001) > 10000 ∧
      (saveHandler sampleUUID none (issue (filler 10001) 3600) emptyStore).1 =
        Error "\x7b\"message\": \"Message is too long\"\x7d" 400 ∧
      (saveHandler sampleUUID none (issue (filler 10001) 3600) emptyStore).2 = emptyStore :=
  have hlen : len (filler 10001) > 10000 := by rw [len_filler]; decide
  have h := long_secret_rejected sampleUUID none (issue (filler 10001) 3600) emptyStore
    ⟨filler 10001, 3600⟩ (Decode_issue _ _ (by decide)) hlen
  ⟨hlen, h.2.2 rfl (by decide), h.2.1⟩

/-- C8. When the store write fails, an otherwise valid issuance request (POST, sanctioned
expiration, secret of at most 10000 bytes) is answered 500 with message "Failed to store secret in
database"; the body is that text alone and carries no key. -/
theorem store_failure_reported (fresh : NewUUID) (err : String) (request : Request)
    (memcached : Client) (s : secret)
    (hmethod : request.Method = "POST") (hbody : Decode request.Body = some s)
    (hexp : s.Expiration = 3600 ∨ s.Expiration = 86400 ∨ s.Expiration = 604800)
    (hlen : len s.Secret ≤ 10000) :
    (saveHandler fresh (some err) request memcached).1 =
        ⟨500, .text "\x7b\"message\": \"Failed to store secret in database\"\x7d"⟩ ∧
      ∀ fields, (saveHandler fresh (some err) request memcached).1.body ≠ .object fields := by
  have hv : validExpiration s.Expiration = true := (validExpiration_iff _).mpr hexp
  have hl : ¬ len s.Secret > 10000 := by omega
  simp [saveHandler, hmethod, hbody, hv, hl, Client.Set, Error, StatusInternalServerError]

theorem store_failure_reported_timeout :
    (issue "hunter2" 3600).Method = "POST" ∧ len "hunter2" ≤ 10000 ∧
      (saveHandler sampleUUID (some "i/o timeout") (issue "hunter2" 3600) emptyStore).1 =
        ⟨500, .text "\x7b\"message\": \"Failed to store secret in database\"\x7d"⟩ :=
  ⟨rfl, by decide,
    (store_failure_reported sampleUUID "i/o timeout" (issue "hunter2" 3600) emptyStore
      ⟨"hunter2", 3600⟩ rfl (by decide) (Or.inl rfl) (by decide)).1⟩

/-! ## What the decoder stores -/

theorem equalFold_distinct (key : String) (hs : equalFold "secret" key = true)
    (he : equalFold "expiration" key = true) : False := by
  simp only [equalFold, beq_iff_eq] at hs he
  have h : "secret".data.map foldRune = "expiration".data.map foldRune := hs.trans he.symm
  revert h
  decide

theorem setField_Secret_kept (s t : secret) (key : String) (value : JSON)
    (hkey : equalFold "secret" key = false) (h : setField s key value = some t) :
    t.Secret = s.Secret := by
  unfold setField at h
  rw [hkey] at h
  by_cases he : equalFold "expiration" key = true
  · cases value <;> simp [he, setExpiration] at h
    · subst h
      rfl
    · rw [← h.2]
  · simp [he] at h
    subst h
    rfl

theorem setField_Expiration_kept (s t : secret) (key : String) (value : JSON)
    (hkey : equalFold "expiration" key = false) (h : setField s key value = some t) :
    t.Expiration = s.Expiration := by
  unfold setField at h
  rw [hkey] at h
  by_cases hs : equalFold "secret" key = true
  · rw [if_pos hs] at h
    cases value <;> simp [setSecret] at h <;> subst h <;> rfl
  · simp [hs] at h
    subst h
    rfl

theorem setFields_Secret (x : String) (fields : List (String × JSON)) (s0 s : secret)
    (hall : ∀ kv ∈ fields, equalFold "secret" kv.1 = true → kv.2 = .str x)
    (hsome : (∃ kv ∈ fields, equalFold "secret" kv.1 = true) ∨ s0.Secret = x)
    (h : setFields s0 fields = some s) : s.Secret = x := by
  induction fields generalizing s0 with
  | nil =>
    simp only [setFields, Option.some.injEq] at h
    subst h
    rcases hsome with ⟨kv, hkv, -⟩ | h0
    · simp at hkv
    · exact h0
  | cons kv rest ih =>
    obtain ⟨key, value⟩ := kv
    cases hf : setField s0 key value with
    | none => simp [setFields, hf] at h
    | some t =>
      simp only [setFields, hf] at h
      refine ih t (fun kv hkv => hall kv (List.mem_cons_of_mem _ hkv)) ?_ h
      by_cases hk : equalFold "secret" key = true
      · have hval : value = .str x := hall (key, value) (List.mem_cons_self _ _) hk
        subst hval
        simp only [setField, hk, if_true, setSecret, Option.some.injEq] at hf
        right
        rw [← hf]
      · have hk2 : equalFold "secret" key = false := by simpa using hk
        have hkeep := setField_Secret_kept s0 t key value hk2 hf
        rcases hsome with ⟨kv2, hmem, hfold⟩ | h0
        · rcases List.mem_cons.mp hmem with rfl | hrest
          · exact absurd hfold hk
          · exact Or.inl ⟨kv2, hrest, hfold⟩
        · exact Or.inr (hkeep.trans h0)

theorem setFields_Expiration (e : Int) (fields : List (String × JSON)) (s0 s : secret)
    (hall : ∀ kv ∈ fields, equalFold "expiration" kv.1 = true → kv.2 = .int e)
    (hsome : (∃ kv ∈ fields, equalFold "expiration" kv.1 = true) ∨ s0.Expiration = e)
    (h : setFields s0 fields = some s) : s.Expiration = e := by
  induction fields generalizing s0 with
  | nil =>
    simp only [setFields, Option.some.injEq] at h
    subst h
    rcases hsome with ⟨kv, hkv, -⟩ | h0
    · simp at hkv
    · exact h0
  | cons kv rest ih =>
    obtain ⟨key, value⟩ := kv
    cases hf : setField s0 key value with
    | none => simp [setFields, hf] at h
    | some t =>
      simp only [setFields, hf] at h
      refine ih t (fun kv hkv => hall kv (List.mem_cons_of_mem _ hkv)) ?_ h
      by_cases hk : equalFold "expiration" key = true
      · have hval : value = .int e := hall (key, value) (List.mem_cons_self _ _) hk
        subst hval
        have hs : equalFold "secret" key = false := by
          cases hs : equalFold "secret" key
          · rfl
          · exact (equalFold_distinct key hs hk).elim
        have hf2 : setExpiration s0 (.int e) = some t := by simpa [setField, hs, hk] using hf
        simp [setExpiration] at hf2
        right
        rw [← hf2.2]
      · have hk2 : equalFold "expiration" key = false := by simpa using hk
        have hkeep := setField_Expiration_kept s0 t key value hk2 hf
        rcases hsome with ⟨kv2, hmem, hfold⟩ | h0
        · rcases List.mem_cons.mp hmem with rfl | hrest
          · exact absurd hfold hk
          · exact Or.inl ⟨kv2, hrest, hfold⟩
        · exact Or.inr (hkeep.trans h0)

theorem Decode_submitted (body : Option JSON) (payload : String) (expiration : Int) (s : secret)
    (hsub : Submits body payload expiration) (h : Decode body = some s) :
    s = ⟨payload, expiration⟩ := by
  obtain ⟨fields, rfl, hs1, hs2, he1, he2⟩ := hsub
  simp only [Decode] at h
  have h1 := setFields_Secret payload fields _ s hs2 (Or.inl hs1) h
  have h2 := setFields_Expiration expiration fields _ s he2 (Or.inl he1) h
  cases s
  simp_all

theorem Submits_issue (x : String) (e : Int) : Submits (issue x e).Body x e := by
  have h1 : equalFold "secret" "secret" = true := by decide
  have h2 : equalFold "secret" "expiration" = false := by decide
  have h3 : equalFold "expiration" "expiration" = true := by decide
  have h4 : equalFold "expiration" "secret" = false := by decide
  refine ⟨_, rfl, ⟨_, List.mem_cons_self _ _, h1⟩, ?_, ⟨_, List.mem_cons_of_mem _ (List.mem_cons_self _ _), h3⟩, ?_⟩
  · intro kv hkv hf
    simp only [List.mem_cons, List.mem_nil_iff, or_false] at hkv
    rcases hkv with rfl | rfl
    · rfl
    · simp [h2] at hf
  · intro kv hkv hf
    simp only [List.mem_cons, List.mem_nil_iff, or_false] at hkv
    rcases hkv with rfl | rfl
    · simp [h4] at hf
    · rfl

/-- C10. An issuance answered 200 has made exactly one call on the store, a Set of the item whose
key is the identifier returned to the caller, whose value is the decoded secret and whose
expiration is the decoded one, and these are the payload and the lifetime that the body submits;
afterwards the store holds that item under the key and holds under every other key what it held
before. -/
theorem issuance_writes_once (fresh : NewUUID) (setFault : Option String) (request : Request)
    (memcached : Client)
    (hok : (saveHandler fresh setFault request memcached).1.status = 200) :
    ∃ s, Decode request.Body = some s ∧
      (∀ payload expiration, Submits request.Body payload expiration →
        s = ⟨payload, expiration⟩) ∧
      (saveHandler fresh setFault request memcached).1 =
        ⟨200, .object [("key", UUID.String fresh.uuid), ("message", "secret stored")]⟩ ∧
      (saveHandler fresh setFault request memcached).2.calls =
        memcached.calls ++ [.set ⟨UUID.String fresh.uuid, s.Secret, s.Expiration⟩] ∧
      lookup (UUID.String fresh.uuid) (saveHandler fresh setFault request memcached).2.items =
        some ⟨UUID.String fresh.uuid, s.Secret, s.Expiration⟩ ∧
      ∀ other, other ≠ UUID.String fresh.uuid →
        lookup other (saveHandler fresh setFault request memcached).2.items =
          lookup other memcached.items := by
  by_cases hmethod : request.Method = "POST"
  swap
  · simp [saveHandler, hmethod, Error, StatusBadRequest] at hok
  cases hbody : Decode request.Body with
  | none => simp [saveHandler, hmethod, hbody, Error, StatusBadRequest] at hok
  | some s =>
    by_cases hv : validExpiration s.Expiration = true
    swap
    · simp [saveHandler, hmethod, hbody, hv, Error, StatusBadRequest] at hok
    by_cases hl : len s.Secret > 10000
    · simp [saveHandler, hmethod, hbody, hv, hl, Error, StatusBadRequest] at hok
    cases setFault with
    | some err =>
      simp [saveHandler, hmethod, hbody, hv, hl, Client.Set, Error,
        StatusInternalServerError] at hok
    | none =>
      refine ⟨s, rfl, ?_, ?_, ?_, ?_, ?_⟩
      · intro payload expiration hsub
        exact Decode_submitted _ _ _ _ hsub hbody
      · simp [saveHandler, hmethod, hbody, hv, hl, Client.Set, Write, StatusOK]
      · simp [saveHandler, hmethod, hbody, hv, hl, Client.Set]
      · simp [saveHandler, hmethod, hbody, hv, hl, Client.Set, lookup]
      · intro other hne
        have hne2 : ¬ UUID.String fresh.uuid = other := fun h => hne h.symm
        simp only [saveHandler, hmethod, hbody, hv, hl, Client.Set, lookup, if_neg hne2]
        simpa using lookup_remove_ne _ _ _ hne

theorem issuance_writes_once_hunter2 :
    (saveHandler sampleUUID none (issue "hunter2" 3600) swordfishStore).1.status = 200 ∧
      (saveHandler sampleUUID none (issue "hunter2" 3600) swordfishStore).1 =
        ⟨200, .object [("key", sampleId), ("message", "secret stored")]⟩ ∧
      (saveHandler sampleUUID none (issue "hunter2" 3600) swordfishStore).2.calls =
        [.set ⟨sampleId, "hunter2", 3600⟩] ∧
      lookup sampleId (saveHandler sampleUUID none (issue "hunter2" 3600) swordfishStore).2.items =
        some ⟨sampleId, "hunter2", 3600⟩ ∧
      lookup sampleId swordfishStore.items = none ∧
      lookup otherId (saveHandler sampleUUID none (issue "hunter2" 3600) swordfishStore).2.items =
        some ⟨otherId, "swordfish", 86400⟩ ∧
      (saveHandler sampleUUID none (issue "hunter2" 3600) swordfishStore).2 =
        ⟨[⟨sampleId, "hunter2", 3600⟩, ⟨otherId, "swordfish", 86400⟩],
          [.set ⟨sampleId, "hunter2", 3600⟩]⟩ := by
  have hok : (saveHandler sampleUUID none (issue "hunter2" 3600) swordfishStore).1.status = 200 := by
    decide
  obtain ⟨s, -, hpin, hresp, hcalls, hlook, hframe⟩ :=
    issuance_writes_once sampleUUID none (issue "hunter2" 3600) swordfishStore hok
  have hs : s = ⟨"hunter2", 3600⟩ := hpin "hunter2" 3600 (Submits_issue "hunter2" 3600)
  have hid : UUID.String sampleUUID.uuid = sampleId := by decide
  subst hs
  rw [hid] at hresp hcalls hlook hframe
  refine ⟨hok, hresp, hcalls, hlook, by decide, ?_, by decide⟩
  rw [hframe otherId (by decide)]
  decide

/-! ## Redemption -/

/-- C6. A request whose path is not `/v1/secret/` followed by an identifier in the canonical
format is answered 400 with message "Bad URL", and the store is left as it was: no Get, no
Delete, no call at all. -/
theorem bad_url_rejected (getFault deleteFault : Option String) (request : Request)
    (memcached : Client)
    (hpath : ¬ ∃ id, CanonicalId id ∧ request.Path = "/v1/secret/" ++ id) :
    getHandler getFault deleteFault request memcached =
      (⟨400, .text "\x7b\"message\": \"Bad URL\"\x7d"⟩, memcached) := by
  have h : FindStringSubmatch request.Path = [] := (FindStringSubmatch_nil_iff _).mpr hpath
  simp [getHandler, h, Error, StatusBadRequest]

theorem bad_url_rejected_samples :
    (¬ ∃ id, CanonicalId id ∧ (redeem "GET" "not-a-uuid").Path = "/v1/secret/" ++ id) ∧
      getHandler none none (redeem "GET" "not-a-uuid") hunterStore =
        (⟨400, .text "\x7b\"message\": \"Bad URL\"\x7d"⟩, hunterStore) ∧
      getHandler none none (redeem "GET" "6BA7B810-9DAD-11D1-80B4-00C04FD430C8") hunterStore =
        (⟨400, .text "\x7b\"message\": \"Bad URL\"\x7d"⟩, hunterStore) ∧
      getHandler none none (redeem "GET" (sampleId ++ "0")) hunterStore =
        (⟨400, .text "\x7b\"message\": \"Bad URL\"\x7d"⟩, hunterStore) :=
  have h1 : ¬ ∃ id, CanonicalId id ∧ (redeem "GET" "not-a-uuid").Path = "/v1/secret/" ++ id :=
    (FindStringSubmatch_nil_iff _).mp (by decide)
  ⟨h1, bad_url_rejected none none _ hunterStore h1,
    bad_url_rejected none none _ hunterStore ((FindStringSubmatch_nil_iff _).mp (by decide)),
    bad_url_rejected none none _ hunterStore ((FindStringSubmatch_nil_iff _).mp (by decide))⟩

theorem getHandler_canonical (getFault deleteFault : Option String) (request : Request)
    (memcached : Client) (id : String) (hid : CanonicalId id)
    (hpath : request.Path = "/v1/secret/" ++ id) :
    getHandler getFault deleteFault request memcached =
      match memcached.Get getFault id with
      | (.error err, after) =>
        if err = "memcache: cache miss" then
          (Error "\x7b\"message\": \"Secret not found\"\x7d" StatusNotFound, after)
        else
          (Error "\x7b\"message\": \"Unable to receive secret from database\"\x7d"
            StatusInternalServerError, after)
      | (.ok item, after) =>
        (Write [("message", "OK"), ("secret", item.Value)], (after.Delete deleteFault id).2) := by
  simp [getHandler, hpath, FindStringSubmatch_canonical id hid]

/-- C1, as amended. When a redemption is answered 200 and the store carries out the Delete that
follows the read, a second redemption of the same path on the resulting store, the store
answering its Get, is answered 404 with message "Secret not found". -/
theorem second_redemption_misses (getFault deleteFault : Option String)
    (first second : Request) (memcached : Client)
    (hfirst : (getHandler getFault none first memcached).1.status = 200)
    (hsame : second.Path = first.Path) :
    (getHandler none deleteFault second (getHandler getFault none first memcached).2).1 =
      ⟨404, .text "\x7b\"message\": \"Secret not found\"\x7d"⟩ := by
  by_cases hm : FindStringSubmatch first.Path = []
  · simp [getHandler, hm, Error, StatusBadRequest] at hfirst
  obtain ⟨id, hid, hpath⟩ := FindStringSubmatch_sound _ hm
  rw [getHandler_canonical _ _ first _ id hid hpath] at hfirst ⊢
  rw [getHandler_canonical _ _ second _ id hid (hsame.trans hpath)]
  cases getFault with
  | some err =>
    by_cases he : err = "memcache: cache miss" <;>
      simp [Client.Get, he, Error, StatusNotFound, StatusInternalServerError] at hfirst
  | none =>
    cases hl : lookup id memcached.items with
    | none => simp [Client.Get, hl, ErrCacheMiss, Error, StatusNotFound] at hfirst
    | some item =>
      simp [Client.Get, Client.Delete, hl, lookup_remove_self, ErrCacheMiss, Error,
        StatusNotFound]

theorem second_redemption_misses_hunter2 :
    (getHandler none none (redeem "GET" sampleId) hunterStore).1 =
        ⟨200, .object [("message", "OK"), ("secret", "hunter2")]⟩ ∧
      (getHandler none none (redeem "GET" sampleId)
          (getHandler none none (redeem "GET" sampleId) hunterStore).2).1 =
        ⟨404, .text "\x7b\"message\": \"Secret not found\"\x7d"⟩ :=
  ⟨by decide,
    second_redemption_misses none none (redeem "GET" sampleId) (redeem "GET" sampleId)
      hunterStore (by decide) rfl⟩

/-- C1, as stated, fails: the first redemption is answered 200 with the payload while the store
fails the Delete (whose result getHandler does not inspect), and the second redemption of the
same identifier is answered 200 with the payload again, not 404. -/
theorem second_redemption_after_failed_delete :
    (getHandler none (some "write tcp: i/o timeout") (redeem "GET" sampleId) hunterStore).1 =
        ⟨200, .object [("message", "OK"), ("secret", "hunter2")]⟩ ∧
      (getHandler none none (redeem "GET" sampleId)
          (getHandler none (some "write tcp: i/o timeout") (redeem "GET" sampleId)
            hunterStore).2).1 =
        ⟨200, .object [("message", "OK"), ("secret", "hunter2")]⟩ := by
  decide

/-- C2, as amended. After an issuance that succeeds (POST, sanctioned expiration, secret of at
most 10000 bytes, store write carried out), a redemption of `/v1/secret/` followed by the returned
key on the resulting store, the store answering the Get, is answered 200 with the `secret` field
equal to the decoded secret and message "OK". -/
theorem round_trip (fresh : NewUUID) (deleteFault : Option String)
    (request redemption : Request) (memcached : Client) (s : secret)
    (hmethod : request.Method = "POST") (hbody : Decode request.Body = some s)
    (hexp : s.Expiration = 3600 ∨ s.Expiration = 86400 ∨ s.Expiration = 604800)
    (hlen : len s.Secret ≤ 10000)
    (hpath : redemption.Path = "/v1/secret/" ++ UUID.String fresh.uuid) :
    (saveHandler fresh none request memcached).1 =
        ⟨200, .object [("key", UUID.String fresh.uuid), ("message", "secret stored")]⟩ ∧
      (getHandler none deleteFault redemption (saveHandler fresh none request memcached).2).1 =
        ⟨200, .object [("message", "OK"), ("secret", s.Secret)]⟩ := by
  have hv : validExpiration s.Expiration = true := (validExpiration_iff _).mpr hexp
  have hl : ¬ len s.Secret > 10000 := by omega
  rw [getHandler_canonical _ _ redemption _ _ (String_canonical fresh) hpath]
  simp [saveHandler, hmethod, hbody, hv, hl, Client.Set, Client.Get, lookup, Write, StatusOK]

theorem round_trip_hunter2 :
    (issue "hunter2" 3600).Method = "POST" ∧ len "hunter2" ≤ 10000 ∧
      (saveHandler sampleUUID none (issue "hunter2" 3600) emptyStore).1 =
        ⟨200, .object [("key", UUID.String sampleUUID.uuid), ("message", "secret stored")]⟩ ∧
      (getHandler none none (redeem "GET" (UUID.String sampleUUID.uuid))
          (saveHandler sampleUUID none (issue "hunter2" 3600) emptyStore).2).1 =
        ⟨200, .object [("message", "OK"), ("secret", "hunter2")]⟩ :=
  ⟨rfl, by decide,
    round_trip sampleUUID none (issue "hunter2" 3600) (redeem "GET" (UUID.String sampleUUID.uuid))
      emptyStore ⟨"hunter2", 3600⟩ rfl (by decide) (Or.inl rfl) (by decide) rfl⟩

/-- C2, as stated, fails: the issuance succeeds and returns the key, and the redemption that
follows at once is answered 500, not 200, because the store answers the Get with an error. -/
theorem round_trip_with_failed_get :
    (saveHandler sampleUUID none (issue "hunter2" 3600) emptyStore).1 =
        ⟨200, .object [("key", sampleId), ("message", "secret stored")]⟩ ∧
      (getHandler (some "read tcp: i/o timeout") none (redeem "GET" sampleId)
          (saveHandler sampleUUID none (issue "hunter2" 3600) emptyStore).2).1 =
        ⟨500, .text "\x7b\"message\": \"Unable to receive secret from database\"\x7d"⟩ := by
  decide

/-- C7 fails on the code: getHandler never reads the method. A DELETE, a POST or a PUT of
`/v1/secret/` followed by a stored identifier is answered 200 with the secret, and the secret is
deleted from the store. -/
theorem other_verbs_redeem :
    getHandler none none (redeem "DELETE" sampleId) hunterStore =
        (⟨200, .object [("message", "OK"), ("secret", "hunter2")]⟩,
          ⟨[], [.get sampleId, .delete sampleId]⟩) ∧
      getHandler none none (redeem "POST" sampleId) hunterStore =
        (⟨200, .object [("message", "OK"), ("secret", "hunter2")]⟩,
          ⟨[], [.get sampleId, .delete sampleId]⟩) ∧
      getHandler none none (redeem "PUT" sampleId) hunterStore =
        (⟨200, .object [("message", "OK"), ("secret", "hunter2")]⟩,
          ⟨[], [.get sampleId, .delete sampleId]⟩) := by
  decide

theorem setField_typed (s t : secret) (key : String) (value : JSON)
    (h : setField s key value = some t) :
    (!equalFold "secret" key || isText value || isNull value) = true ∧
      (!equalFold "expiration" key || isInt32 value || isNull value) = true := by
  unfold setField at h
  by_cases hs : equalFold "secret" key = true
  · have he : equalFold "expiration" key = false := by
      cases he : equalFold "expiration" key
      · rfl
      · exact (equalFold_distinct key hs he).elim
    rw [if_pos hs] at h
    cases value <;> simp [setSecret] at h <;> simp [hs, he, isText, isNull]
  · have hs2 : equalFold "secret" key = false := by simpa using hs
    rw [if_neg hs] at h
    by_cases he : equalFold "expiration" key = true
    · rw [if_pos he] at h
      cases value <;> simp [setExpiration] at h <;> simp [hs2, he, isInt32, isNull, h]
    · have he2 : equalFold "expiration" key = false := by simpa using he
      simp [hs2, he2]

theorem setField_Expiration_set (s t : secret) (key : String) (value : JSON)
    (h : setField s key value = some t) (hne : t.Expiration ≠ s.Expiration) :
    (equalFold "expiration" key && isInt32 value) = true := by
  by_cases he : equalFold "expiration" key = true
  · have hs : equalFold "secret" key = false := by
      cases hs : equalFold "secret" key
      · rfl
      · exact (equalFold_distinct key hs he).elim
    have h2 : setExpiration s value = some t := by simpa [setField, hs, he] using h
    cases value <;> simp [setExpiration] at h2
    · subst h2
      exact absurd rfl hne
    · simp [he, isInt32, h2.1]
  · have he2 : equalFold "expiration" key = false := by simpa using he
    exact absurd (setField_Expiration_kept s t key value he2 h) hne

theorem setFields_structured (fields : List (String × JSON)) (s0 s : secret)
    (h : setFields s0 fields = some s) :
    fields.all (fun kv => !equalFold "secret" kv.1 || isText kv.2 || isNull kv.2) = true ∧
      fields.all (fun kv => !equalFold "expiration" kv.1 || isInt32 kv.2 || isNull kv.2) = true ∧
      (s.Expiration ≠ s0.Expiration →
        fields.any (fun kv => equalFold "expiration" kv.1 && isInt32 kv.2) = true) := by
  induction fields generalizing s0 with
  | nil =>
    simp only [setFields, Option.some.injEq] at h
    subst h
    simp
  | cons kv rest ih =>
    obtain ⟨key, value⟩ := kv
    cases hf : setField s0 key value with
    | none => simp [setFields, hf] at h
    | some t =>
      simp only [setFields, hf] at h
      obtain ⟨h1, h2, h3⟩ := ih t h
      obtain ⟨t1, t2⟩ := setField_typed s0 t key value hf
      refine ⟨?_, ?_, ?_⟩
      · rw [List.all_cons, h1, t1]; rfl
      · rw [List.all_cons, h2, t2]; rfl
      · intro hne
        rw [List.any_cons]
        by_cases hst : t.Expiration = s0.Expiration
        · rw [h3 (fun h4 => hne (h4.trans hst))]
          simp
        · rw [setField_Expiration_set s0 t key value hf hst]
          rfl

/-- C9, as amended. A POST issuance request whose body is not a structured payload with an
`expiration` integer field (the body does not begin with a well-formed JSON value, or that value
is not an object, or a `secret` member is neither text nor null, or an `expiration` member is
neither a 32-bit integer nor null, or no `expiration` member is an integer) is answered 400, with
message "Unable to parse json" or "Invalid expiration specified", and leaves the store as it was,
no call being made; the absence of a `secret` member is not among the grounds. -/
theorem unstructured_body_rejected (fresh : NewUUID) (setFault : Option String)
    (request : Request) (memcached : Client) (hmethod : request.Method = "POST")
    (hbody : StructuredPayload request.Body = false) :
    ((saveHandler fresh setFault request memcached).1 =
          ⟨400, .text "\x7b\"message\": \"Unable to parse json\"\x7d"⟩ ∨
        (saveHandler fresh setFault request memcached).1 =
          ⟨400, .text "\x7b\"message\": \"Invalid expiration specified\"\x7d"⟩) ∧
      (saveHandler fresh setFault request memcached).1.status = 400 ∧
      (saveHandler fresh setFault request memcached).2 = memcached ∧
      (request.Body = none →
        (saveHandler fresh setFault request memcached).1 =
          ⟨400, .text "\x7b\"message\": \"Unable to parse json\"\x7d"⟩) := by
  cases hd : Decode request.Body with
  | none => simp [saveHandler, hmethod, hd, Error, StatusBadRequest]
  | some s =>
    by_cases hv : validExpiration s.Expiration = true
    · exfalso
      have hne : s.Expiration ≠ 0 := by
        intro h0
        rw [h0] at hv
        revert hv
        decide
      cases hb : request.Body with
      | none => simp [hb, Decode] at hd
      | some v =>
        rw [hb] at hd hbody
        cases v with
        | obj fields =>
          simp only [Decode] at hd
          obtain ⟨h1, h2, h3⟩ := setFields_structured fields _ s hd
          simp only [StructuredPayload, h1, h2, h3 hne] at hbody
          simp at hbody
        | null =>
          simp only [Decode, Option.some.injEq] at hd
          subst hd
          exact hne rfl
        | bool b => simp [Decode] at hd
        | int n => simp [Decode] at hd
        | float l => simp [Decode] at hd
        | str x => simp [Decode] at hd
        | arr xs => simp [Decode] at hd
    · have hb : request.Body ≠ none := by
        intro hb
        simp [hb, Decode] at hd
      simp [saveHandler, hmethod, hd, hv, hb, Error, StatusBadRequest]

theorem unstructured_body_rejected_samples :
    ((saveHandler sampleUUID none ⟨"POST", "/v1/secret", none⟩ hunterStore).1 =
        ⟨400, .text "\x7b\"message\": \"Unable to parse json\"\x7d"⟩ ∧
      (saveHandler sampleUUID none ⟨"POST", "/v1/secret", none⟩ hunterStore).2 = hunterStore) ∧
      ((saveHandler sampleUUID none ⟨"POST", "/v1/secret", some (.obj [("secret", .str "x")])⟩
          hunterStore).1.status = 400 ∧
        (saveHandler sampleUUID none ⟨"POST", "/v1/secret", some (.obj [("secret", .str "x")])⟩
          hunterStore).2 = hunterStore) ∧
      (saveHandler sampleUUID none
          ⟨"POST", "/v1/secret", some (.obj [("secret", .int 7), ("expiration", .int 3600)])⟩
          hunterStore).1.status = 400 ∧
      (saveHandler sampleUUID none
          ⟨"POST", "/v1/secret", some (.obj [("secret", .str "x"), ("expiration", .str "3600")])⟩
          hunterStore).1.status = 400 ∧
      (saveHandler sampleUUID none
          ⟨"POST", "/v1/secret", some (.arr [.str "x", .int 3600])⟩ hunterStore).1.status = 400 ∧
      saveHandler sampleUUID none
          ⟨"POST", "/v1/secret", some (.obj [("secret", .int 7), ("expiration", .int 3600)])⟩
          hunterStore =
        (⟨400, .text "\x7b\"message\": \"Unable to parse json\"\x7d"⟩, hunterStore) ∧
      saveHandler sampleUUID none
          ⟨"POST", "/v1/secret", some (.obj [("secret", .str "x"), ("expiration", .str "3600")])⟩
          hunterStore =
        (⟨400, .text "\x7b\"message\": \"Unable to parse json\"\x7d"⟩, hunterStore) ∧
      saveHandler sampleUUID none ⟨"POST", "/v1/secret", some (.obj [("secret", .str "x")])⟩
          hunterStore =
        (⟨400, .text "\x7b\"message\": \"Invalid expiration specified\"\x7d"⟩, hunterStore) :=
  have h1 := unstructured_body_rejected sampleUUID none ⟨"POST", "/v1/secret", none⟩ hunterStore
    rfl (by decide)
  have h2 := unstructured_body_rejected sampleUUID none
    ⟨"POST", "/v1/secret", some (.obj [("secret", .str "x")])⟩ hunterStore rfl (by decide)
  ⟨⟨h1.2.2.2 rfl, h1.2.2.1⟩, ⟨h2.2.1, h2.2.2.1⟩,
    (unstructured_body_rejected sampleUUID none
      ⟨"POST", "/v1/secret", some (.obj [("secret", .int 7), ("expiration", .int 3600)])⟩
      hunterStore rfl (by decide)).2.1,
    (unstructured_body_rejected sampleUUID none
      ⟨"POST", "/v1/secret", some (.obj [("secret", .str "x"), ("expiration", .str "3600")])⟩
      hunterStore rfl (by decide)).2.1,
    (unstructured_body_rejected sampleUUID none
      ⟨"POST", "/v1/secret", some (.arr [.str "x", .int 3600])⟩ hunterStore rfl (by decide)).2.1,
    by decide, by decide, by decide⟩

/-- C9, as stated, fails: a POST whose body `{"expiration": 3600}` has no `secret` member is
answered 200, and an item with an empty value is written to the store. -/
theorem missing_secret_accepted :
    saveHandler sampleUUID none ⟨"POST", "/v1/secret", some (.obj [("expiration", .int 3600)])⟩
        emptyStore =
      (⟨200, .object [("key", sampleId), ("message", "secret stored")]⟩,
        ⟨[⟨sampleId, "", 3600⟩], [.set ⟨sampleId, "", 3600⟩]⟩) := by
  decide

end Yopass
